import Mathlib

/-!
Verification of the IAM directory security-posture aggregator.

This file shallowly embeds the directory-side metric classifiers of
`AD_provisioning_Agent.py` and `iamDashboard/iamMetrics.py`, the timestamp
codec, the account-control bit checks, the Entra-side MFA set-difference
metric, and the snapshot aggregator `build_iam_dashboard`, and proves or
refutes the frozen claims about them.

Modelling conventions:
* A distinguished name (DN) is a list of RDN component strings, leaf first;
  "entry lies in the subtree of `base`" is "`base` is a suffix of the DN".
* An LDAP search returns every entry in the base's subtree matching the
  filter; server-side paging is modelled by `scanPages`, which yields the
  match list in chunks of `pageSize` and advances a cursor exactly the way
  the simple-paged-results control does (a cookie is returned iff entries
  remain).  A single `conn.search(..., paged_size=500)` call with no cookie
  loop receives only the first page, i.e. `matches.take 500`.
* Python attribute truthiness (`if not value`) is modelled explicitly;
  Python `int(raw)` on an LDAP raw value is `parseLdapInt`, which fails
  (models the raised `TypeError`/`ValueError`) on `None` and on
  non-numeric strings.
-/

/-- A raw LDAP attribute value as the `ldap3` client hands it to Python:
absent (`None`), an integer, or a string. -/
inductive LdapValue where
  | absent : LdapValue
  | intVal : Int → LdapValue
  | strVal : String → LdapValue
deriving DecidableEq

/-- Python truthiness of a raw attribute value (`if lockout_raw:`):
`None`, `0` and `""` are falsy. -/
def LdapValue.pyTruthy : LdapValue → Bool
  | .absent => false
  | .intVal n => n != 0
  | .strVal s => s != ""

/-- Model of Python `int(s)` on a string: an optional sign followed by at
least one decimal digit; anything else raises (here: `none`). -/
def pyParseIntDigits : List Char → Option Nat
  | [] => none
  | [c] => if c.isDigit then some (c.toNat - '0'.toNat) else none
  | c :: cs =>
    if c.isDigit then
      match pyParseIntDigits cs with
      | some n => some ((c.toNat - '0'.toNat) * 10 ^ cs.length + n)
      | none => none
    else none

/-- Model of Python `int(s)` for a whole string, handling a leading sign. -/
def pyParseInt (s : String) : Option Int :=
  match s.data with
  | '-' :: cs => (pyParseIntDigits cs).map (fun n => -(n : Int))
  | '+' :: cs => (pyParseIntDigits cs).map (fun n => (n : Int))
  | cs => (pyParseIntDigits cs).map (fun n => (n : Int))

/-- Model of Python `int(raw)` on a raw LDAP value: an integer passes
through, a string is parsed, `None` raises (`none`). -/
def parseLdapInt : LdapValue → Option Int
  | .absent => none
  | .intVal n => some n
  | .strVal s => pyParseInt s

/-- A directory entry as returned by an LDAP search: a distinguished name
(list of RDN components, leaf first) plus the attributes the classifiers in
the source read.  Absent single-valued attributes are `none`; absent
multi-valued attributes are `[]` (LDAP has no empty-valued attributes). -/
structure ADEntry where
  dn : List String := []
  objectClass : List String := []
  objectCategory : String := ""
  cn : String := ""
  description : Option String := none
  managedBy : Option (List String) := none
  member : List String := []
  servicePrincipalName : List String := []
  sAMAccountName : String := ""
  displayName : Option String := none
  userAccountControl : Option Nat := none
  lockoutTime : LdapValue := .absent
  lastLogonTimestamp : Option Int := none
deriving DecidableEq

/-- `(objectClass=group)` filter clause. -/
def isGroup (e : ADEntry) : Bool := e.objectClass.contains "group"

/-- `(objectClass=user)` filter clause. -/
def isUser (e : ADEntry) : Bool := e.objectClass.contains "user"

/-- `(objectCategory=person)` filter clause. -/
def isPerson (e : ADEntry) : Bool := e.objectCategory == "person"

/-- Model of `conn.search(search_base=base, search_filter=f, ...)`: every
entry of the directory lying in the subtree of `base` and matching the
filter, in directory order. -/
def adSearch (d : List ADEntry) (base : List String) (f : ADEntry → Bool) :
    List ADEntry :=
  d.filter (fun e => base.isSuffixOf e.dn && f e)

/-- The disabled-account check of `show_group_members` /
`list_inactive_owner_groups`: `bool(uac & 0x2)` (0x2 = ACCOUNTDISABLE). -/
def is_disabled (uac : Nat) : Bool := uac &&& 0x2 != 0

/-- The LDAP bit-AND matching rule `userAccountControl:1.2.840.113556.1.4.803:=m`
used in the search filters: matches iff the attribute is present and every
bit of the mask is set in it. -/
def uacBitFilter (e : ADEntry) (mask : Nat) : Bool :=
  match e.userAccountControl with
  | none => false
  | some u => u &&& mask == mask

/-- The password-never-expires filter clause
`userAccountControl:1.2.840.113556.1.4.803:=65536` as a test on the flags
value itself (65536 = 0x10000). -/
def pwd_never_expires (uac : Nat) : Bool := uac &&& 65536 == 65536

/-! ## Timestamp codec

`datetime_to_filetime` computes `int((dt - epoch).total_seconds() * 10**7)`.
We model a UTC calendar instant as its exact rational number of seconds
since 1601-01-01T00:00:00Z — this embeds both the microsecond-resolution
`datetime` values the code can hold and the 100 ns-resolution instants the
claim quantifies over — and we idealise `total_seconds()` to exact rational
arithmetic (the real code computes it in floating point, which can only
make the round-trip worse). -/

/-- Python `int(q)`: truncation toward zero. -/
def pyInt (q : ℚ) : ℤ := Int.tdiv q.num (q.den : ℤ)

/-- Model of `datetime_to_filetime`: seconds since the 1601 epoch times
`10^7`, truncated to an integer tick count (exact-arithmetic idealisation
of `int(total_seconds() * 10**7)`). -/
def datetime_to_filetime (s : ℚ) : ℤ := pyInt (s * 10 ^ 7)

/-- Model of the tick-to-calendar decoding used for lockout timestamps
(`datetime(1601,1,1) + timedelta(microseconds=int(raw) // 10)`): floor the
tick count to whole microseconds, returned as rational seconds since the
1601 epoch. -/
def filetime_to_datetime (ticks : ℤ) : ℚ := ((Int.fdiv ticks 10 : ℤ) : ℚ) / 10 ^ 6

/-- The defensive lockout-timestamp decode of `count_account_lockouts`
(lines 283-298): `None` for a falsy raw value, `None` when `int(raw)`
raises, otherwise the decoded instant as whole microseconds since the 1601
epoch (`timedelta(microseconds=int(raw) // 10)`). -/
def decode_lockout (raw : LdapValue) : Option Int :=
  if raw.pyTruthy then
    match parseLdapInt raw with
    | some n => some (Int.fdiv n 10)
    | none => none
  else none

/-! ## Paged Scanner

The simple-paged-results control (`1.2.840.113556.1.4.319`): each request
carries a cookie (here: the scan position), the server answers with the
next `pageSize` matches and returns a fresh cookie iff matches remain.
`scanPages` is the page sequence an exhaustive cookie-follow loop sees. -/

/-- The sequence of pages a cookie-following loop receives, starting from
scan position `cookie`: each page is the next `pageSize` matches, and the
loop continues exactly while the server hands back a cookie (i.e. while
entries remain beyond the page just served). -/
def scanPages (ms : List ADEntry) (pageSize cookie : Nat) :
    List (List ADEntry) :=
  let page := (ms.drop cookie).take pageSize
  if _h : cookie + pageSize < ms.length ∧ 0 < pageSize then
    page :: scanPages ms pageSize (cookie + pageSize)
  else [page]
termination_by ms.length - cookie
decreasing_by omega

/-- The first (and only) page received by a single
`conn.search(..., paged_size=n)` call whose cookie is never resubmitted. -/
def firstPage (ms : List ADEntry) (pageSize : Nat) : List ADEntry :=
  ms.take pageSize

/-! ## Directory-side metric classifiers -/

/-- Sample record of `count_memberless_groups`. -/
structure CmgRec where
  dn : List String
  cn : String
deriving DecidableEq

/-- Result shape of `count_memberless_groups` et al.: a JSON object with a
`count` and a `sample`. -/
structure CmgResult where
  count : Nat
  sample : List CmgRec
deriving DecidableEq

/-- The sampling condition of `count_memberless_groups`:
`max_results is None or len(results) < max_results`. -/
def cmg_keep (maxResults : Option Nat) (len : Nat) : Bool :=
  match maxResults with
  | none => true
  | some m => len < m

/-- One loop-body step of `count_memberless_groups`: `total += 1`, and the
entry is appended to the sample iff `max_results is None or
len(results) < max_results`. -/
def cmg_step (maxResults : Option Nat) (acc : Nat × List CmgRec) (e : ADEntry) :
    Nat × List CmgRec :=
  (acc.1 + 1,
    if cmg_keep maxResults acc.2.length then
      acc.2 ++ [{ dn := e.dn, cn := e.cn }]
    else acc.2)

/-- The filter `(&(objectClass=group)(!(member=*)))` of
`count_memberless_groups`, applied over the whole base subtree. -/
def memberlessMatches (d : List ADEntry) (base : List String) : List ADEntry :=
  adSearch d base (fun e => isGroup e && e.member.isEmpty)

/-- `IAMPlugin.count_memberless_groups` (iamMetrics.py lines 146-178):
pages through `(&(objectClass=group)(!(member=*)))` following the paged
cookie until the server returns none, counting every entry and sampling up
to `max_results`. -/
def count_memberless_groups (d : List ADEntry) (base : List String)
    (maxResults : Option Nat) (pageSize : Nat) : CmgResult :=
  let acc := (scanPages (memberlessMatches d base) pageSize 0).foldl
    (fun acc page => page.foldl (cmg_step maxResults) acc) (0, [])
  { count := acc.1, sample := acc.2 }

/-- Sample record of `count_service_accounts`. -/
structure SvcRec where
  sam : String
  dn : List String
deriving DecidableEq

/-- Result shape of `count_service_accounts`. -/
structure SvcResult where
  count : Nat
  sample : List SvcRec
deriving DecidableEq

/-- The filter `(&(objectClass=user)(servicePrincipalName=*))` of
`count_service_accounts`, over the whole base subtree. -/
def svcMatches (d : List ADEntry) (base : List String) : List ADEntry :=
  adSearch d base (fun e => isUser e && !e.servicePrincipalName.isEmpty)

/-- `IAMPlugin.count_service_accounts` (iamMetrics.py lines 211-226): a
single `conn.search(..., paged_size=500)` call with no cookie loop, so
`self.conn.entries` is the first page only; `total` is its length and the
sample is its first `max_results` entries. -/
def count_service_accounts (d : List ADEntry) (base : List String)
    (maxResults : Nat) : SvcResult :=
  let entries := firstPage (svcMatches d base) 500
  { count := entries.length,
    sample := (entries.take maxResults).map
      (fun e => { sam := e.sAMAccountName, dn := e.dn }) }

/-- Sample record of `find_inactive_accounts`. -/
structure FiaRec where
  sam : String
  name : Option String
  lastLogonTimestamp : Option Int
deriving DecidableEq

/-- Result shape of `find_inactive_accounts`. -/
structure FiaResult where
  count : Nat
  sample : List FiaRec
deriving DecidableEq

/-- The filter of `find_inactive_accounts`:
`(&(objectClass=user)(objectCategory=person)(lastLogonTimestamp<=T)(!(uac:bitAnd:=2)))`.
The `<=` clause only matches entries carrying the attribute. -/
def inactiveMatches (d : List ADEntry) (base : List String) (threshold : Int) :
    List ADEntry :=
  adSearch d base (fun e =>
    isUser e && isPerson e &&
    (match e.lastLogonTimestamp with
     | some t => t ≤ threshold
     | none => false) &&
    !uacBitFilter e 2)

/-- The break condition of `find_inactive_accounts`'s sample loop:
`max_results and len(results) >= max_results` — Python truthiness makes a
`max_results` of `None` or `0` never break. -/
def fia_break (maxResults : Option Nat) (len : Nat) : Bool :=
  match maxResults with
  | none => false
  | some m => 0 < m && m ≤ len

/-- The sample loop of `find_inactive_accounts`: iterate the returned
entries, breaking once `max_results and len(results) >= max_results` is
truthy. -/
def fia_loop (maxResults : Option Nat) : List ADEntry → List FiaRec → List FiaRec
  | [], acc => acc
  | e :: rest, acc =>
    if fia_break maxResults acc.length then acc
    else fia_loop maxResults rest
      (acc ++ [{ sam := e.sAMAccountName, name := e.displayName,
                 lastLogonTimestamp := e.lastLogonTimestamp }])

/-- `IAMPlugin.find_inactive_accounts` (iamMetrics.py lines 180-209): a
single `paged_size=500` search (first page only, no cookie loop); the
threshold filetime derived from `days` is passed here directly.  `count`
is `len(self.conn.entries)`. -/
def find_inactive_accounts (d : List ADEntry) (base : List String)
    (threshold : Int) (maxResults : Option Nat) : FiaResult :=
  let entries := firstPage (inactiveMatches d base threshold) 500
  { count := entries.length, sample := fia_loop maxResults entries [] }

/-- Sample record of `count_account_lockouts`. -/
structure CalRec where
  sam : String
  displayName : Option String
  dn : List String
  lockoutTime_raw : LdapValue
  lockoutTime : Option Int
deriving DecidableEq

/-- Result shape of `count_account_lockouts`. -/
structure CalResult where
  count : Nat
  sample : List CalRec
deriving DecidableEq

/-- The filter `(&(objectCategory=person)(objectClass=user)(lockoutTime>=1))`
of `count_account_lockouts`; the server compares the stored integer value. -/
def lockoutMatches (d : List ADEntry) (base : List String) : List ADEntry :=
  adSearch d base (fun e =>
    isPerson e && isUser e &&
    (match parseLdapInt e.lockoutTime with
     | some n => 1 ≤ n
     | none => false))

/-- `IAMPlugin.count_account_lockouts` (iamMetrics.py lines 268-300): a
single `paged_size=500` search; each of the first `max_results` entries is
reported with its raw lockout value and the defensively decoded calendar
time, which degrades to `None` instead of aborting. -/
def count_account_lockouts (d : List ADEntry) (base : List String)
    (maxResults : Nat) : CalResult :=
  let entries := firstPage (lockoutMatches d base) 500
  { count := entries.length,
    sample := (entries.take maxResults).map (fun e =>
      { sam := e.sAMAccountName, displayName := e.displayName, dn := e.dn,
        lockoutTime_raw := e.lockoutTime,
        lockoutTime := decode_lockout e.lockoutTime }) }

/-! ## Provisioning-agent classifiers (AD_provisioning_Agent.py)

These methods return JSON strings; we model each returned JSON object as a
record whose optional fields are present exactly when the corresponding
key is emitted. -/

/-- A group record `{"cn": ..., "description": ...}`. -/
structure GroupRec where
  cn : String
  description : Option String
deriving DecidableEq

/-- A record of `list_inactive_owner_groups`:
`{"group", "owner_cn", "owner_sam", "status"}`. -/
structure IOGRec where
  group : String
  owner_cn : String
  owner_sam : String
  status : String
deriving DecidableEq

/-- The JSON object shape shared by the provisioning-agent classifiers:
`status` plus optional `message`, `total`, `shown` and `groups` keys
(`none` models an absent key). -/
structure AgentResult (ρ : Type) where
  status : String
  message : Option String := none
  total : Option Nat := none
  shown : Option Nat := none
  groups : Option (List ρ) := none
deriving DecidableEq

/-- Length of the sample actually carried by a result (empty when the
`groups` key is absent). -/
def AgentResult.sampleLen {ρ : Type} (r : AgentResult ρ) : Nat :=
  (r.groups.getD []).length

/-- The `total` carried by a result, read as `0` when the key is absent. -/
def AgentResult.totalD {ρ : Type} (r : AgentResult ρ) : Nat :=
  r.total.getD 0

/-- Python `str.lower()`. -/
def pyLower (s : String) : String := ⟨s.data.map Char.toLower⟩

/-- The matching groups of `groups_without_owner`: filter
`(&(objectClass=group)(!(managedBy=*)))` over the base subtree. -/
def ownerlessMatches (d : List ADEntry) (base : List String) : List ADEntry :=
  adSearch d base (fun e => isGroup e && e.managedBy.isNone)

/-- The `{"cn", "description"}` records `groups_without_owner` builds from
its matches. -/
def ownerlessRecs (d : List ADEntry) (base : List String) : List GroupRec :=
  (ownerlessMatches d base).map
    (fun e => { cn := e.cn, description := e.description })

/-- `AD_Provisioning_Agent.groups_without_owner` (lines 633-684): searches
`(&(objectClass=group)(!(managedBy=*)))`; `limited_results` is
`ownerless_groups[:count] if count > 0 else ownerless_groups` — at
`count = 0` the FULL list; the `action` selects which keys are emitted
(`"count"` has no sample, `"list"` has no total). -/
def groups_without_owner (d : List ADEntry) (base : List String)
    (action : String) (count : Nat) : AgentResult GroupRec :=
  let matched := ownerlessMatches d base
  if matched.isEmpty then
    { status := "success", total := some 0, groups := some [] }
  else
    let og := ownerlessRecs d base
    let total := og.length
    let limited := if 0 < count then og.take count else og
    if pyLower action == "count" then
      { status := "success", total := some total }
    else if pyLower action == "list" then
      { status := "success", groups := some limited, shown := some limited.length }
    else if pyLower action == "both" then
      { status := "success", total := some total, groups := some limited,
        shown := some limited.length }
    else
      { status := "error",
        message := some "Invalid action. Use 'list', 'count', or 'both'." }

/-- The groups found in `OU=BU_Groups` by
`groups_not_following_naming_convention`, with the non-compliance check
`not any(cn.startswith(prefix) for prefix in allowed_prefixes)` (Python
`str.startswith` modelled on the character list). -/
def nonCompliantGroups (d : List ADEntry) (base : List String)
    (allowedPrefixes : List String) : List ADEntry :=
  (adSearch d ("OU=BU_Groups" :: base) (fun e => isGroup e)).filter
    (fun e => !allowedPrefixes.any (fun p => p.data.isPrefixOf e.cn.data))

/-- `AD_Provisioning_Agent.groups_not_following_naming_convention`
(lines 888-955): at `count = 0` it returns the total, an empty `groups`
list and a prompt message; at `count > 0` it returns the total, `shown`
and the first `count` non-compliant groups. -/
def groups_not_following_naming_convention (d : List ADEntry)
    (base : List String) (allowedPrefixes : List String) (count : Nat) :
    AgentResult GroupRec :=
  let found := adSearch d ("OU=BU_Groups" :: base) (fun e => isGroup e)
  if found.isEmpty then
    { status := "success", total := some 0, groups := some [] }
  else
    let nc := (nonCompliantGroups d base allowedPrefixes).map
      (fun e => { cn := e.cn, description := e.description : GroupRec })
    let total := nc.length
    if total = 0 then
      { status := "success", total := some 0, groups := some [] }
    else if count = 0 then
      { status := "success", total := some total, groups := some [],
        message := some "Specify count to list sample non-compliant groups." }
    else
      { status := "success", total := some total,
        shown := some (min count total), groups := some (nc.take count) }

/-- The structural zero-member check of `groups_with_zero_members`: all
groups are fetched with attributes `['cn', 'member']` and kept when
`not hasattr(entry, 'member') or not entry.member` — with the attribute
requested, exactly when the member value list is empty. -/
def zeroMemberGroups (d : List ADEntry) (base : List String) : List ADEntry :=
  (adSearch d base (fun e => isGroup e)).filter (fun e => e.member.isEmpty)

/-- The zero-member message `f"There are {total} groups with zero members.
How many would you like to list?"`. -/
def gzmMessage (total : Nat) : String :=
  "There are " ++ toString total ++
    " groups with zero members. How many would you like to list?"

/-- `AD_Provisioning_Agent.groups_with_zero_members` (lines 957-1020):
searches `(objectClass=group)` and keeps groups with an empty member
attribute; `description` is always `None` because the search only requested
`['cn', 'member']` (so `hasattr(entry, 'description')` is false); at
`count = 0` it returns the total, an empty list and a counting message. -/
def groups_with_zero_members (d : List ADEntry) (base : List String)
    (count : Nat) : AgentResult GroupRec :=
  let found := adSearch d base (fun e => isGroup e)
  if found.isEmpty then
    { status := "success", total := some 0, groups := some [] }
  else
    let zs := (zeroMemberGroups d base).map
      (fun e => { cn := e.cn, description := none : GroupRec })
    let total := zs.length
    if total = 0 then
      { status := "success", total := some 0, groups := some [] }
    else
      let limited := if 0 < count then zs.take count else zs
      if count = 0 then
        { status := "success", total := some total, groups := some [],
          message := some (gzmMessage total) }
      else
        { status := "success", total := some total,
          shown := some limited.length, groups := some limited }

/-- The owner resolution of `list_inactive_owner_groups`: a search with
`search_base=owner_dn` and filter `(objectClass=user)` — the entries in the
owner DN's subtree that are users. -/
def resolveUser (d : List ADEntry) (ownerDn : List String) : List ADEntry :=
  adSearch d ownerDn (fun e => isUser e)

/-- The owner-status loop of `list_inactive_owner_groups` (lines 830-856):
skip a group whose `managedBy` value is falsy; skip a group whose owner
lookup returns no entry (dangling reference); otherwise read the first
resolved entry's `userAccountControl` — `int(None)` raises a `TypeError`
that the surrounding `except` turns into an error result — and keep the
group iff the owner's disabled bit `0x2` is set. -/
def iog_scan (d : List ADEntry) : List ADEntry → Except String (List IOGRec)
  | [] => Except.ok []
  | g :: rest =>
    let ownerDn := g.managedBy.getD []
    if ownerDn.isEmpty then iog_scan d rest
    else
      match resolveUser d ownerDn with
      | [] => iog_scan d rest
      | owner :: _ =>
        match owner.userAccountControl with
        | none => Except.error "int() argument must be a string or a number, not NoneType"
        | some uac =>
          if is_disabled uac then
            (iog_scan d rest).map (fun lst =>
              { group := g.cn, owner_cn := owner.cn,
                owner_sam := owner.sAMAccountName, status := "disabled" } :: lst)
          else iog_scan d rest

/-- `AD_Provisioning_Agent.list_inactive_owner_groups` (lines 800-885):
searches `(&(objectClass=group)(managedBy=*))`, resolves each owner, and
reports the groups whose resolved owner is disabled; `count_only` drops the
sample, otherwise `shown = min(limit, total)` and the first `limit` records
are listed. -/
def list_inactive_owner_groups (d : List ADEntry) (base : List String)
    (limit : Nat) (countOnly : Bool) : AgentResult IOGRec :=
  let matched := adSearch d base (fun e => isGroup e && e.managedBy.isSome)
  if matched.isEmpty then
    { status := "success", total := some 0, groups := some [] }
  else
    match iog_scan d matched with
    | Except.error msg => { status := "error", message := some msg }
    | Except.ok lst =>
      let total := lst.length
      if total = 0 then
        { status := "success", total := some 0, groups := some [] }
      else if countOnly then
        { status := "success", total := some total }
      else
        { status := "success", total := some total,
          shown := some (min limit total), groups := some (lst.take limit) }

/-! ## Cloud identity metrics: applications without MFA enforcement -/

/-- A registered application as returned by the `servicePrincipals`
endpoint (`$select=id,appId,displayName`); only `id` and `displayName` are
consumed. -/
structure ServicePrincipal where
  id : String
  displayName : Option String := none
deriving DecidableEq

/-- The `grantControls` object of a conditional-access policy; `none` for
the `builtInControls` field models an absent key. -/
structure GrantControls where
  builtInControls : Option (List String) := none
deriving DecidableEq

/-- A conditional-access policy: its grant controls (`none` models a
missing/null `grantControls`) and its
`conditions.applications.includeApplications` / `excludeApplications`. -/
structure CAPolicy where
  grantControls : Option GrantControls := none
  includeApplications : List String := []
  excludeApplications : List String := []
deriving DecidableEq

/-- One insertion into a Python dict: an existing key keeps its position
and gets the new value, a new key is appended. -/
def dictUpsert (m : List (String × String)) (k v : String) :
    List (String × String) :=
  if m.any (fun kv => kv.1 == k) then
    m.map (fun kv => if kv.1 == k then (k, v) else kv)
  else m ++ [(k, v)]

/-- The dict comprehension
`{app["id"]: app.get("displayName", "Unnamed App") for app in apps}`. -/
def buildAppMap (apps : List ServicePrincipal) : List (String × String) :=
  apps.foldl (fun m a => dictUpsert m a.id (a.displayName.getD "Unnamed App")) []

/-- The policy test of `get_mfa_disabled_apps`: `grant_controls` truthy,
a `builtInControls` key present, and `"mfa"` among its values. -/
def policyMandatesMfa (p : CAPolicy) : Bool :=
  match p.grantControls with
  | none => false
  | some gc =>
    match gc.builtInControls with
    | none => false
    | some bics => bics.contains "mfa"

/-- Membership of an application id in one MFA policy's `policy_apps` set:
`set(all_app_map.keys()) - exclude` when `"All"` is included, otherwise
`set(include) - exclude`. -/
def policyCoversApp (allIds : List String) (p : CAPolicy) (x : String) : Bool :=
  if p.includeApplications.contains "All" then
    allIds.contains x && !p.excludeApplications.contains x
  else
    p.includeApplications.contains x && !p.excludeApplications.contains x

/-- Membership of an application id in the accumulated `mfa_apps` set:
the union over the policies mandating MFA of their `policy_apps` sets. -/
def mfaCoveredApp (allIds : List String) (policies : List CAPolicy)
    (x : String) : Bool :=
  policies.any (fun p => policyMandatesMfa p && policyCoversApp allIds p x)

/-- `IAMPlugin.get_mfa_disabled_apps` (iamMetrics.py lines 88-127), success
path: build the app map, accumulate `mfa_apps` over the conditional-access
policies, and return the count and list of apps whose id is not covered. -/
def get_mfa_disabled_apps (apps : List ServicePrincipal)
    (policies : List CAPolicy) : Nat × List (String × String) :=
  let m := buildAppMap apps
  let allIds := m.map Prod.fst
  let without := m.filter (fun kv => !mfaCoveredApp allIds policies kv.1)
  (without.length, without)

/-- Following the SPEC's words, for the refinement comparison: the set of
registered applications. -/
def specRegisteredApps (apps : List ServicePrincipal) : Finset String :=
  (apps.map (fun a => a.id)).toFinset

/-- Following the SPEC's words: the applications one policy covers — every
registered application except the policy's exclusions when it includes
`"All"`, otherwise its included applications minus its exclusions. -/
def specPolicyCoverage (apps : List ServicePrincipal) (p : CAPolicy) :
    Finset String :=
  if "All" ∈ p.includeApplications then
    specRegisteredApps apps \ p.excludeApplications.toFinset
  else
    p.includeApplications.toFinset \ p.excludeApplications.toFinset

/-- Following the SPEC's words: the union, over all conditional-access
policies whose grant controls include MFA, of the applications each policy
covers. -/
def specMfaCoverage (apps : List ServicePrincipal) (policies : List CAPolicy) :
    Finset String :=
  policies.foldr
    (fun p acc =>
      if policyMandatesMfa p then specPolicyCoverage apps p ∪ acc else acc) ∅

/-- Following the SPEC's words: the set difference of all registered
applications minus the union of MFA-covered applications. -/
def spec_apps_without_mfa (apps : List ServicePrincipal)
    (policies : List CAPolicy) : Finset String :=
  specRegisteredApps apps \ specMfaCoverage apps policies

/-! ## Snapshot aggregator -/

/-- The snapshot dictionary `build_iam_dashboard` returns, one key per
metric; each payload is kept abstract as the JSON text of the metric's
result. -/
structure IamSnapshot where
  risky_users : String
  protected_users : String
  privileged_accounts : String
  ownerless_groups_entra : String
  mfa_disabled_apps : String
  ownerless_groups_ad : String
  memberless_groups : String
  inactive_accounts : String
  service_accounts : String
  pwd_never_expire : String
  account_lockouts : String
deriving DecidableEq

/-- `IAMPlugin.build_iam_dashboard` (iamMetrics.py lines 304-321): a plain
dict literal calling the eleven classifiers in source order with no
`try`/`except` anywhere — each argument here is the outcome of one
classifier call (`Except.error` models a raised exception), and the dict
is built only if every call returns. -/
def build_iam_dashboard
    (ru pu pa oge mda oga mg ia sa pne al : Except String String) :
    Except String IamSnapshot := do
  let v1 ← ru
  let v2 ← pu
  let v3 ← pa
  let v4 ← oge
  let v5 ← mda
  let v6 ← oga
  let v7 ← mg
  let v8 ← ia
  let v9 ← sa
  let v10 ← pne
  let v11 ← al
  Except.ok
    { risky_users := v1, protected_users := v2, privileged_accounts := v3,
      ownerless_groups_entra := v4, mfa_disabled_apps := v5,
      ownerless_groups_ad := v6, memberless_groups := v7,
      inactive_accounts := v8, service_accounts := v9,
      pwd_never_expire := v10, account_lockouts := v11 }

/-- Truth value of "this classifier call returned without raising". -/
def exceptOk {α : Type} (x : Except String α) : Bool :=
  match x with
  | Except.ok _ => true
  | Except.error _ => false

/-! ## Concrete directory states used as witnesses and counterexamples -/

/-- A group entry carrying no `managedBy` attribute. -/
def gOwnerless : ADEntry :=
  { dn := ["CN=G1", "DC=corp"], objectClass := ["group"], cn := "G1" }

/-- A group entry whose `managedBy` reference resolves to no entry. -/
def gDangling : ADEntry :=
  { dn := ["CN=G2", "DC=corp"], objectClass := ["group"], cn := "G2",
    managedBy := some ["CN=ghost", "DC=corp"] }

/-- A group entry owned by the disabled user `bob`. -/
def gOwned : ADEntry :=
  { dn := ["CN=G3", "DC=corp"], objectClass := ["group"], cn := "G3",
    managedBy := some ["CN=bob", "DC=corp"] }

/-- A disabled user (`userAccountControl = 0x202`). -/
def uBob : ADEntry :=
  { dn := ["CN=bob", "DC=corp"], objectClass := ["user"],
    objectCategory := "person", cn := "bob", sAMAccountName := "bob",
    userAccountControl := some 0x202 }

/-- A small directory with one ownerless group, one group with a dangling
owner, one group owned by a disabled user, and that user. -/
def demoDir : List ADEntry := [gOwnerless, gDangling, gOwned, uBob]

/-- A person account with an old `lastLogonTimestamp` and no
`userAccountControl` attribute. -/
def uInactive : ADEntry :=
  { dn := ["CN=u1", "DC=corp"], objectClass := ["user"],
    objectCategory := "person", cn := "u1", sAMAccountName := "u1",
    displayName := some "U One", lastLogonTimestamp := some 50 }

/-- A directory with a single long-inactive person account. -/
def fiaDir : List ADEntry := [uInactive]

/-- A service account (non-empty `servicePrincipalName`). -/
def svcEntry : ADEntry :=
  { dn := ["CN=svc", "DC=corp"], objectClass := ["user"], cn := "svc",
    sAMAccountName := "svc", servicePrincipalName := ["HOST/svc"] }

/-- A directory with 501 service accounts — one more than the 500-entry
page served by a single paged search. -/
def svcDir : List ADEntry := List.replicate 501 svcEntry

/-- A memberless group and a group with a member, for paging witnesses. -/
def gEmpty : ADEntry :=
  { dn := ["CN=GE", "DC=corp"], objectClass := ["group"], cn := "GE" }

/-- A group that has one member. -/
def gFull : ADEntry :=
  { dn := ["CN=GF", "DC=corp"], objectClass := ["group"], cn := "GF",
    member := ["CN=bob,DC=corp"] }

/-- A directory with one memberless and one populated group. -/
def gzmDir : List ADEntry := [gEmpty, gFull]

/-- A locked-out account whose `lockoutTime` is the string the LDAP client
delivered. -/
def uLocked : ADEntry :=
  { dn := ["CN=locked", "DC=corp"], objectClass := ["user"],
    objectCategory := "person", cn := "locked", sAMAccountName := "locked",
    lockoutTime := LdapValue.intVal 133500000000000005 }

/-- A directory with one locked-out account. -/
def calDir : List ADEntry := [uLocked]

/-! ## Helper lemmas -/

theorem scanPages_join (ms : List ADEntry) (ps : Nat) (hps : 0 < ps) :
    ∀ c, (scanPages ms ps c).flatten = ms.drop c := by
  have H : ∀ n c, ms.length - c ≤ n → (scanPages ms ps c).flatten = ms.drop c := by
    intro n
    induction n with
    | zero =>
      intro c hc
      rw [scanPages]
      have hcond : ¬(c + ps < ms.length ∧ 0 < ps) := by omega
      rw [dif_neg hcond]
      have hnil : ms.drop c = [] := List.drop_eq_nil_of_le (by omega)
      simp [hnil]
    | succ n ih =>
      intro c hc
      rw [scanPages]
      by_cases hcond : c + ps < ms.length ∧ 0 < ps
      · rw [dif_pos hcond]
        rw [List.flatten_cons, ih (c + ps) (by omega)]
        rw [show ms.drop (c + ps) = (ms.drop c).drop ps by rw [List.drop_drop]]
        exact List.take_append_drop ps (ms.drop c)
      · rw [dif_neg hcond]
        have hle : ms.length ≤ c + ps := by omega
        have : (ms.drop c).length ≤ ps := by
          rw [List.length_drop]; omega
        simp [List.take_of_length_le this]
  exact fun c => H (ms.length - c) c le_rfl

theorem foldl_pages {β : Type} (f : β → ADEntry → β) :
    ∀ (ls : List (List ADEntry)) (i : β),
      ls.foldl (fun b page => page.foldl f b) i = ls.flatten.foldl f i := by
  intro ls
  induction ls with
  | nil => intro i; rfl
  | cons p t ih => intro i; simp [List.foldl_append, ih]

theorem cmg_fold_count (mr : Option Nat) (xs : List ADEntry) :
    ∀ (t : Nat) (r : List CmgRec),
      (xs.foldl (cmg_step mr) (t, r)).1 = t + xs.length := by
  induction xs with
  | nil => intro t r; simp
  | cons e rest ih =>
    intro t r
    rw [List.foldl_cons]
    have h1 : cmg_step mr (t, r) e = (t + 1, (cmg_step mr (t, r) e).2) := rfl
    rw [h1, ih]
    simp only [List.length_cons]
    omega

theorem cmg_fold_sample_le_count (mr : Option Nat) (xs : List ADEntry) :
    ∀ (t : Nat) (r : List CmgRec), r.length ≤ t →
      ((xs.foldl (cmg_step mr) (t, r)).2).length ≤ (xs.foldl (cmg_step mr) (t, r)).1 := by
  induction xs with
  | nil => intro t r h; simpa using h
  | cons e rest ih =>
    intro t r h
    rw [List.foldl_cons]
    have h1 : cmg_step mr (t, r) e = (t + 1, (cmg_step mr (t, r) e).2) := rfl
    rw [h1]
    apply ih
    show (if cmg_keep mr r.length then r ++ [{ dn := e.dn, cn := e.cn }] else r).length ≤ t + 1
    split
    · simp only [List.length_append, List.length_cons, List.length_nil]; omega
    · omega

theorem cmg_fold_sample_le_cap (m : Nat) (xs : List ADEntry) :
    ∀ (t : Nat) (r : List CmgRec), r.length ≤ m →
      ((xs.foldl (cmg_step (some m)) (t, r)).2).length ≤ m := by
  induction xs with
  | nil => intro t r h; simpa using h
  | cons e rest ih =>
    intro t r h
    rw [List.foldl_cons]
    have h1 : cmg_step (some m) (t, r) e = (t + 1, (cmg_step (some m) (t, r) e).2) := rfl
    rw [h1]
    apply ih
    show (if cmg_keep (some m) r.length then r ++ [{ dn := e.dn, cn := e.cn }] else r).length ≤ m
    by_cases hlt : r.length < m
    · rw [if_pos (by simpa [cmg_keep] using hlt)]
      simp only [List.length_append, List.length_cons, List.length_nil]; omega
    · rw [if_neg (by simpa [cmg_keep] using hlt)]
      exact h

theorem fia_loop_no_break (xs : List ADEntry) :
    ∀ acc, fia_loop (some 0) xs acc =
      acc ++ xs.map (fun e =>
        { sam := e.sAMAccountName, name := e.displayName,
          lastLogonTimestamp := e.lastLogonTimestamp }) := by
  induction xs with
  | nil => intro acc; simp [fia_loop]
  | cons e rest ih =>
    intro acc
    rw [fia_loop]
    rw [if_neg (by simp [fia_break])]
    rw [ih]
    simp

/-! ## Claim C5 — timestamp round-trip -/

/-- C5 counterexample: the claim demands exactness at 100 ns precision, but
the instant 5 ticks after the 1601 epoch (a time representable at 100 ns
precision) decodes back to the epoch itself: the decode truncates the tick
count to whole microseconds via `// 10`, so
`fromDirectoryTime(toDirectoryTime(t))` is `0 ≠ t`. -/
theorem claim_C5_counterexample :
    filetime_to_datetime (datetime_to_filetime ((5 : ℚ) / 10 ^ 7)) = 0 ∧
    ((5 : ℚ) / 10 ^ 7) ≠ 0 := by
  constructor
  · have h1 : ((5 : ℚ) / 10 ^ 7) * 10 ^ 7 = (((5 : ℤ) : ℚ)) := by norm_num
    unfold datetime_to_filetime pyInt
    rw [h1]
    simp only [Rat.num_intCast, Rat.den_intCast, Nat.cast_one, Int.tdiv_one]
    unfold filetime_to_datetime
    rw [show Int.fdiv 5 10 = 0 from by decide]
    norm_num
  · norm_num

/-- C5 (amended): for every calendar time at whole-microsecond precision —
the resolution the code's calendar type actually supports, i.e. a tick
count divisible by 10 — the round-trip
`fromDirectoryTime(toDirectoryTime(t)) = t` holds exactly under
exact-arithmetic evaluation of the code's formulas; at strictly finer
100 ns precision the decode's `// 10` truncation breaks the round-trip
(see the counterexample), and the encode's floating-point
`total_seconds() * 10**7` is a further deviation from the claimed
"no floating-point rounding". -/
theorem claim_C5_amended (k : ℤ) (hk : (10 : ℤ) ∣ k) :
    filetime_to_datetime (datetime_to_filetime ((k : ℚ) / 10 ^ 7)) = (k : ℚ) / 10 ^ 7 := by
  obtain ⟨m, rfl⟩ := hk
  have h1 : ((10 * m : ℤ) : ℚ) / 10 ^ 7 * 10 ^ 7 = ((10 * m : ℤ) : ℚ) := by
    field_simp
  unfold datetime_to_filetime pyInt
  rw [h1]
  simp only [Rat.num_intCast, Rat.den_intCast, Nat.cast_one, Int.tdiv_one]
  unfold filetime_to_datetime
  rw [Int.mul_fdiv_cancel_left m (by norm_num)]
  push_cast
  ring

/-- C5 witness: the amended round-trip at the concrete tick count 10
(one microsecond past the epoch). -/
theorem claim_C5_witness :
    filetime_to_datetime (datetime_to_filetime (((10 : ℤ) : ℚ) / 10 ^ 7))
      = ((10 : ℤ) : ℚ) / 10 ^ 7 :=
  claim_C5_amended 10 ⟨1, by norm_num⟩

/-! ## Claim C6 — defensive lockout decode -/

/-- C6: the lockout decode returns `none` for a zero or absent raw value
and `none` (rather than aborting) for any raw value Python's `int()` cannot
parse, and the calling classifier still reports its full sample — the
sample length depends only on the result cap and the match count, never on
the decodability of the lockout values. -/
theorem claim_C6 (raw : LdapValue) (d : List ADEntry) (base : List String)
    (m : Nat) (hraw : parseLdapInt raw = none) :
    decode_lockout (LdapValue.intVal 0) = none ∧
    decode_lockout LdapValue.absent = none ∧
    decode_lockout raw = none ∧
    (count_account_lockouts d base m).sample.length
      = min m (min 500 (lockoutMatches d base).length) := by
  refine ⟨rfl, rfl, ?_, ?_⟩
  · unfold decode_lockout
    rw [hraw]
    simp
  · simp [count_account_lockouts, firstPage, List.length_take]

/-- C6 witness: the decode at the unparsable raw string value `"garbage"`
and the classifier on a one-entry directory. -/
theorem claim_C6_witness :
    decode_lockout (LdapValue.intVal 0) = none ∧
    decode_lockout LdapValue.absent = none ∧
    decode_lockout (LdapValue.strVal "garbage") = none ∧
    (count_account_lockouts calDir [] 10).sample.length
      = min 10 (min 500 (lockoutMatches calDir []).length) :=
  claim_C6 (LdapValue.strVal "garbage") calDir [] 10 (by decide)

/-! ## Claim C8 — account-control bit checks -/

/-- C8: for every 32-bit flags value the disabled check `uac & 0x2` is true
iff bit 1 is set and the password-never-expires test
(`userAccountControl:1.2.840.113556.1.4.803:=65536`) is true iff bit 16 is
set; in particular `0x202` is disabled, `0x10200` has password never
expiring, and `0` is neither. -/
theorem claim_C8 (f : Nat) (_hf : f < 2 ^ 32) :
    (is_disabled f = true ↔ f.testBit 1 = true) ∧
    (pwd_never_expires f = true ↔ f.testBit 16 = true) ∧
    is_disabled 0x202 = true ∧ pwd_never_expires 0x10200 = true ∧
    is_disabled 0 = false ∧ pwd_never_expires 0 = false := by
  refine ⟨?_, ?_, by decide, by decide, rfl, rfl⟩
  · unfold is_disabled
    rw [show (0x2 : Nat) = 2 ^ 1 from rfl, Nat.and_two_pow]
    cases hb : f.testBit 1 <;> simp
  · unfold pwd_never_expires
    rw [show (65536 : Nat) = 2 ^ 16 from rfl, Nat.and_two_pow]
    cases hb : f.testBit 16 <;> simp

/-- C8 witness: the bit characterisations at the concrete flags value
`0x202`. -/
theorem claim_C8_witness :
    (is_disabled 0x202 = true ↔ Nat.testBit 0x202 1 = true) ∧
    (pwd_never_expires 0x202 = true ↔ Nat.testBit 0x202 16 = true) ∧
    is_disabled 0x202 = true ∧ pwd_never_expires 0x10200 = true ∧
    is_disabled 0 = false ∧ pwd_never_expires 0 = false :=
  claim_C8 0x202 (by norm_num)

/-! ## Claim C1 — snapshot aggregator error containment -/

/-- C1 counterexample: `build_iam_dashboard` contains no error handling, so
a single raising classifier (here the memberless-groups scan) propagates as
an exception to the caller instead of yielding a snapshot with a per-metric
error field. -/
theorem claim_C1_counterexample :
    build_iam_dashboard (Except.ok "r") (Except.ok "p") (Except.ok "g")
      (Except.ok "o") (Except.ok "m") (Except.ok "a")
      (Except.error "ldap scan failed") (Except.ok "i") (Except.ok "s")
      (Except.ok "n") (Except.ok "l")
      = Except.error "ldap scan failed" := rfl

/-- C1 (amended): `build_iam_dashboard` returns a snapshot exactly when
every classifier call returns without raising, in which case every metric
is populated with its classifier's payload; the first raising classifier's
exception propagates to the caller.  (Classifiers that internally map a
non-success HTTP status to an error payload, such as
`get_mfa_disabled_apps`, do appear in the snapshot — but a raised exception
is never caught.) -/
theorem claim_C1_amended :
    (∀ ru pu pa oge mda oga mg ia sa pne al : Except String String,
      exceptOk (build_iam_dashboard ru pu pa oge mda oga mg ia sa pne al)
        = (exceptOk ru && exceptOk pu && exceptOk pa && exceptOk oge &&
           exceptOk mda && exceptOk oga && exceptOk mg && exceptOk ia &&
           exceptOk sa && exceptOk pne && exceptOk al)) ∧
    (∀ v1 v2 v3 v4 v5 v6 v7 v8 v9 v10 v11 : String,
      build_iam_dashboard (Except.ok v1) (Except.ok v2) (Except.ok v3)
        (Except.ok v4) (Except.ok v5) (Except.ok v6) (Except.ok v7)
        (Except.ok v8) (Except.ok v9) (Except.ok v10) (Except.ok v11)
        = Except.ok
          { risky_users := v1, protected_users := v2,
            privileged_accounts := v3, ownerless_groups_entra := v4,
            mfa_disabled_apps := v5, ownerless_groups_ad := v6,
            memberless_groups := v7, inactive_accounts := v8,
            service_accounts := v9, pwd_never_expire := v10,
            account_lockouts := v11 }) := by
  constructor
  · intro ru pu pa oge mda oga mg ia sa pne al
    cases ru <;> cases pu <;> cases pa <;> cases oge <;> cases mda <;>
      cases oga <;> cases mg <;> cases ia <;> cases sa <;> cases pne <;>
      cases al <;> rfl
  · intro v1 v2 v3 v4 v5 v6 v7 v8 v9 v10 v11
    rfl

/-! ## Claim C2 — count-only mode at limit 0 -/

/-- C2 counterexample: `find_inactive_accounts` invoked with
`max_results = 0` returns its FULL sample, not an empty one — the break
guard `if max_results and len(results) >= max_results` is never taken
because `0` is falsy in Python — so the claimed count-only contract fails
on a directory with one matching account. -/
theorem claim_C2_counterexample :
    (find_inactive_accounts fiaDir [] 100 (some 0)).sample ≠ [] ∧
    (find_inactive_accounts fiaDir [] 100 (some 0)).count = 1 := by
  constructor
  · decide
  · decide

/-- C2 (amended): the `limit = 0` behaviours of the cited classifiers
diverge. `groups_not_following_naming_convention` alone implements
count-only mode: at `count = 0` it returns an empty sample together with
the total that counts the filter matches (its message is a fixed prompt
that does not state the count).  `groups_without_owner` with `count = 0`
and a listing action returns the FULL matching list and no message, and
`find_inactive_accounts` with `max_results = 0` returns the full
(first-page) sample, while its `count` is the first-page length. -/
theorem claim_C2_amended :
    (∀ (d : List ADEntry) (base : List String) (pfx : List String),
      (groups_not_following_naming_convention d base pfx 0).groups = some [] ∧
      (groups_not_following_naming_convention d base pfx 0).total
        = some (nonCompliantGroups d base pfx).length) ∧
    (∀ (d : List ADEntry) (base : List String),
      (groups_without_owner d base "list" 0).groups
        = some (ownerlessRecs d base) ∧
      (groups_without_owner d base "list" 0).message = none) ∧
    (∀ (d : List ADEntry) (base : List String) (thr : Int),
      (find_inactive_accounts d base thr (some 0)).sample
        = (firstPage (inactiveMatches d base thr) 500).map
            (fun e => { sam := e.sAMAccountName, name := e.displayName,
                        lastLogonTimestamp := e.lastLogonTimestamp }) ∧
      (find_inactive_accounts d base thr (some 0)).count
        = (firstPage (inactiveMatches d base thr) 500).length) := by
  refine ⟨?_, ?_, ?_⟩
  · intro d base pfx
    simp only [groups_not_following_naming_convention]
    by_cases h1 : (adSearch d ("OU=BU_Groups" :: base) (fun e => isGroup e)).isEmpty
    · have hnc : nonCompliantGroups d base pfx = [] := by
        unfold nonCompliantGroups
        rw [List.isEmpty_iff.mp h1]
        rfl
      rw [if_pos h1, hnc]
      exact ⟨rfl, rfl⟩
    · rw [if_neg h1]
      by_cases h2 : ((nonCompliantGroups d base pfx).map
          (fun e => { cn := e.cn, description := e.description : GroupRec })).length = 0
      · rw [if_pos h2]
        simp only [List.length_map] at h2
        rw [h2]
        exact ⟨rfl, rfl⟩
      · rw [if_neg h2, if_pos trivial]
        simp only [List.length_map]
        exact ⟨trivial, trivial⟩
  · intro d base
    have hc : (pyLower "list" == "count") = false := by decide
    have hl : (pyLower "list" == "list") = true := by decide
    simp only [groups_without_owner, hc, hl]
    by_cases h : (ownerlessMatches d base).isEmpty
    · have hr : ownerlessRecs d base = [] := by
        unfold ownerlessRecs
        rw [List.isEmpty_iff.mp h]
        rfl
      rw [if_pos h, hr]
      exact ⟨rfl, rfl⟩
    · rw [if_neg h]
      simp
  · intro d base thr
    constructor
    · simp only [find_inactive_accounts]
      rw [fia_loop_no_break]
      simp
    · rfl

/-! ## Claim C3 — sample/limit/total invariants -/

/-- C3 counterexample: `groups_without_owner` at `count = 0` (with the
listing action `"both"`) returns the FULL matching list, so on a directory
with one ownerless group the sample length 1 exceeds the limit 0 —
`len(sample) <= limit` fails. -/
theorem claim_C3_counterexample :
    ¬(((groups_without_owner demoDir [] "both" 0).groups.getD []).length ≤ 0) := by
  decide

/-- C3 (amended): the invariants `len(sample) <= limit`,
`len(sample) <= total` and limit-independence of `total` hold for
`list_inactive_owner_groups` (any limit, any mode) and for
`count_memberless_groups` (any numeric `max_results`); for
`groups_without_owner` they hold only when `count > 0` — at `count = 0`
the full matching list is returned (see the counterexample). -/
theorem claim_C3_amended :
    (∀ (d : List ADEntry) (base : List String) (limit : Nat) (co : Bool),
      (list_inactive_owner_groups d base limit co).sampleLen ≤ limit ∧
      (list_inactive_owner_groups d base limit co).sampleLen
        ≤ (list_inactive_owner_groups d base limit co).totalD ∧
      (list_inactive_owner_groups d base limit co).total
        = (list_inactive_owner_groups d base 0 true).total) ∧
    (∀ (d : List ADEntry) (base : List String) (m : Nat) (mr : Option Nat)
        (ps : Nat),
      (count_memberless_groups d base (some m) ps).sample.length ≤ m ∧
      (count_memberless_groups d base (some m) ps).sample.length
        ≤ (count_memberless_groups d base (some m) ps).count ∧
      (count_memberless_groups d base mr ps).count
        = (count_memberless_groups d base none ps).count) ∧
    (∀ (d : List ADEntry) (base : List String) (c : Nat), 0 < c →
      (groups_without_owner d base "both" c).sampleLen ≤ c ∧
      (groups_without_owner d base "both" c).sampleLen
        ≤ (groups_without_owner d base "both" c).totalD ∧
      (groups_without_owner d base "both" c).total
        = some (ownerlessRecs d base).length) := by
  refine ⟨?_, ?_, ?_⟩
  · intro d base limit co
    unfold list_inactive_owner_groups AgentResult.sampleLen AgentResult.totalD
    by_cases h1 : (adSearch d base (fun e => isGroup e && e.managedBy.isSome)).isEmpty
    · rw [if_pos h1, if_pos h1]
      simp
    · rw [if_neg h1, if_neg h1]
      cases hscan : iog_scan d (adSearch d base (fun e => isGroup e && e.managedBy.isSome)) with
      | error msg => simp
      | ok lst =>
        by_cases h2 : lst.length = 0
        · simp [h2]
        · cases co
          · simp [h2, List.length_take]
          · simp [h2]
  · intro d base m mr ps
    have hkey : ∀ mr2 : Option Nat, (count_memberless_groups d base mr2 ps).count
        = ((scanPages (memberlessMatches d base) ps 0).flatten).length := by
      intro mr2
      show ((scanPages (memberlessMatches d base) ps 0).foldl
        (fun acc page => page.foldl (cmg_step mr2) acc) (0, [])).1 = _
      rw [foldl_pages, cmg_fold_count]
      omega
    have hsample : ∀ mr2 : Option Nat, (count_memberless_groups d base mr2 ps).sample
        = (((scanPages (memberlessMatches d base) ps 0).flatten).foldl
            (cmg_step mr2) (0, [])).2 := by
      intro mr2
      show ((scanPages (memberlessMatches d base) ps 0).foldl
        (fun acc page => page.foldl (cmg_step mr2) acc) (0, [])).2 = _
      rw [foldl_pages]
    refine ⟨?_, ?_, ?_⟩
    · rw [hsample]
      exact cmg_fold_sample_le_cap m _ 0 [] (by simp)
    · rw [hsample, hkey]
      have h := cmg_fold_sample_le_count (some m)
        ((scanPages (memberlessMatches d base) ps 0).flatten) 0 [] (by simp)
      rw [cmg_fold_count] at h
      simpa using h
    · rw [hkey, hkey]
  · intro d base c hc
    have hcb : (pyLower "both" == "count") = false := by decide
    have hlb : (pyLower "both" == "list") = false := by decide
    have hbb : (pyLower "both" == "both") = true := by decide
    simp only [groups_without_owner, hcb, hlb, hbb]
    by_cases h : (ownerlessMatches d base).isEmpty
    · have hr : ownerlessRecs d base = [] := by
        unfold ownerlessRecs
        rw [List.isEmpty_iff.mp h]
        rfl
      rw [if_pos h]
      simp [AgentResult.sampleLen, AgentResult.totalD, hr]
    · rw [if_neg h, if_pos hc]
      simp [AgentResult.sampleLen, AgentResult.totalD, List.length_take]

/-- C3 witness: the `groups_without_owner` invariants at the concrete
positive limit 1 on the demo directory. -/
theorem claim_C3_witness :
    (groups_without_owner demoDir [] "both" 1).sampleLen ≤ 1 ∧
    (groups_without_owner demoDir [] "both" 1).sampleLen
      ≤ (groups_without_owner demoDir [] "both" 1).totalD ∧
    (groups_without_owner demoDir [] "both" 1).total
      = some (ownerlessRecs demoDir []).length :=
  claim_C3_amended.2.2 demoDir [] 1 (by decide)

/-! ## Claim C4 — full-scan totals via cursor following -/

set_option maxRecDepth 4000 in
/-- C4 counterexample: `count_service_accounts` issues a single paged
search and never resubmits the cookie, so on a directory with 501 matching
service accounts it reports a total of 500 (the first page), not the
number of entries matching the filter over the entire scan. -/
theorem claim_C4_counterexample :
    (count_service_accounts svcDir [] 10).count ≠ (svcMatches svcDir []).length := by
  decide

/-- C4 (amended): `count_memberless_groups` does follow the continuation
cookie page after page until the server stops returning one, and its total
equals the full matching count, with the concatenation of the visited
pages equal to the match list (no duplicates, no omissions); but
`count_service_accounts` performs a single paged request, so its total is
`min 500 total` — the first page only — and undercounts whenever more than
500 entries match. -/
theorem claim_C4_amended :
    (∀ (d : List ADEntry) (base : List String) (mr : Option Nat) (ps : Nat),
      0 < ps →
      (count_memberless_groups d base mr ps).count
        = (memberlessMatches d base).length ∧
      (scanPages (memberlessMatches d base) ps 0).flatten
        = memberlessMatches d base) ∧
    (∀ (d : List ADEntry) (base : List String) (k : Nat),
      (count_service_accounts d base k).count
        = min 500 (svcMatches d base).length) := by
  constructor
  · intro d base mr ps hps
    have hjoin : (scanPages (memberlessMatches d base) ps 0).flatten
        = memberlessMatches d base := by
      rw [scanPages_join _ _ hps 0]
      simp
    refine ⟨?_, hjoin⟩
    show ((scanPages (memberlessMatches d base) ps 0).foldl
      (fun acc page => page.foldl (cmg_step mr) acc) (0, [])).1 = _
    rw [foldl_pages, cmg_fold_count, hjoin]
    omega
  · intro d base k
    show (firstPage (svcMatches d base) 500).length = _
    simp [firstPage, List.length_take]

/-- C4 witness: the cookie-following total and cursor-follow equation on
the two-group demo directory at page size 500. -/
theorem claim_C4_witness :
    (count_memberless_groups gzmDir [] (some 5) 500).count
      = (memberlessMatches gzmDir []).length ∧
    (scanPages (memberlessMatches gzmDir []) 500 0).flatten
      = memberlessMatches gzmDir [] :=
  claim_C4_amended.1 gzmDir [] (some 5) 500 (by decide)

/-! ## Claim C10 — the two memberless-group classifiers agree -/

theorem cmg_count_full (d : List ADEntry) (base : List String)
    (mr : Option Nat) (ps : Nat) (hps : 0 < ps) :
    (count_memberless_groups d base mr ps).count
      = (memberlessMatches d base).length := by
  have hjoin : (scanPages (memberlessMatches d base) ps 0).flatten
      = memberlessMatches d base := by
    rw [scanPages_join _ _ hps 0]
    simp
  show ((scanPages (memberlessMatches d base) ps 0).foldl
    (fun acc page => page.foldl (cmg_step mr) acc) (0, [])).1 = _
  rw [foldl_pages, cmg_fold_count, hjoin]
  omega

/-- C10: the structural zero-member check of `groups_with_zero_members`
(all groups, member attribute empty) selects exactly the entries matched
by the LDAP filter `(&(objectClass=group)(!(member=*)))` of
`count_memberless_groups`, and both classifiers report the same total
over every directory state. -/
theorem claim_C10 (d : List ADEntry) (base : List String) (c : Nat)
    (mr : Option Nat) (ps : Nat) (hps : 0 < ps) :
    zeroMemberGroups d base = memberlessMatches d base ∧
    (groups_with_zero_members d base c).total
      = some ((count_memberless_groups d base mr ps).count) := by
  have hlist : zeroMemberGroups d base = memberlessMatches d base := by
    unfold zeroMemberGroups memberlessMatches adSearch
    rw [List.filter_filter]
    apply List.filter_congr
    intro e _
    cases hsuf : base.isSuffixOf e.dn <;> cases hg : isGroup e <;>
      cases hm : e.member.isEmpty <;> simp [hsuf, hg, hm]
  have htotal : (groups_with_zero_members d base c).total
      = some ((zeroMemberGroups d base).length) := by
    simp only [groups_with_zero_members]
    split_ifs with h1 h2 h3 <;>
      simp_all [List.length_map, zeroMemberGroups, List.isEmpty_iff]
  refine ⟨hlist, ?_⟩
  rw [htotal, hlist, cmg_count_full d base mr ps hps]

/-- C10 witness: the agreement on the concrete two-group directory at page
size 500. -/
theorem claim_C10_witness :
    zeroMemberGroups gzmDir [] = memberlessMatches gzmDir [] ∧
    (groups_with_zero_members gzmDir [] 0).total
      = some ((count_memberless_groups gzmDir [] none 500).count) :=
  claim_C10 gzmDir [] 0 none 500 (by decide)

/-! ## Claim C7 — dangling owner references excluded from total -/

/-- C7: a group whose owner reference resolves to no entry contributes
nothing to `list_inactive_owner_groups` — removing it from the scanned
group list leaves the owner-status scan's outcome (hence both the total
and the sample) unchanged, and the reported total is always the length of
the scan's result list. -/
theorem claim_C7 (d : List ADEntry) (g : ADEntry) (odn : List String)
    (hmb : g.managedBy = some odn) (hres : resolveUser d odn = []) :
    (∀ gs₁ gs₂, iog_scan d (gs₁ ++ g :: gs₂) = iog_scan d (gs₁ ++ gs₂)) ∧
    (∀ (base : List String) (limit : Nat) (co : Bool) (lst : List IOGRec),
      iog_scan d (adSearch d base (fun e => isGroup e && e.managedBy.isSome))
          = Except.ok lst →
      (list_inactive_owner_groups d base limit co).total = some lst.length) := by
  constructor
  · intro gs₁
    induction gs₁ with
    | nil =>
      intro gs₂
      simp only [List.nil_append]
      rw [iog_scan, hmb]
      simp only [Option.getD_some]
      by_cases he : odn.isEmpty
      · rw [if_pos he]
      · rw [if_neg he, hres]
    | cons a t ih =>
      intro gs₂
      simp only [List.cons_append]
      rw [iog_scan, ih gs₂]
      rw [iog_scan]
  · intro base limit co lst hscan
    unfold list_inactive_owner_groups
    by_cases h1 : (adSearch d base (fun e => isGroup e && e.managedBy.isSome)).isEmpty
    · rw [if_pos h1]
      rw [List.isEmpty_iff.mp h1] at hscan
      rw [iog_scan] at hscan
      injection hscan with h
      rw [← h]
      rfl
    · rw [if_neg h1, hscan]
      by_cases h2 : lst.length = 0
      · simp [h2]
      · cases co <;> simp [h2]

/-- C7 witness: on the demo directory the dangling-owner group `G2` drops
out of the scan, and the reported total (1) counts only the group whose
owner resolved and is disabled. -/
theorem claim_C7_witness :
    iog_scan demoDir ([] ++ gDangling :: [gOwned])
      = iog_scan demoDir ([] ++ [gOwned]) ∧
    (list_inactive_owner_groups demoDir [] 5 false).total
      = some [({ group := "G3", owner_cn := "bob", owner_sam := "bob",
                 status := "disabled" } : IOGRec)].length :=
  ⟨(claim_C7 demoDir gDangling ["CN=ghost", "DC=corp"] rfl (by decide)).1
      [] [gOwned],
   (claim_C7 demoDir gDangling ["CN=ghost", "DC=corp"] rfl (by decide)).2
      [] 5 false _ rfl⟩

/-! ## Claim C9 — applications without MFA enforcement -/

theorem dictUpsert_keys (m : List (String × String)) (k v : String) :
    (dictUpsert m k v).map Prod.fst
      = if m.any (fun kv => kv.1 == k) then m.map Prod.fst
        else m.map Prod.fst ++ [k] := by
  unfold dictUpsert
  split
  · rw [List.map_map]
    apply List.map_congr_left
    intro kv _
    simp only [Function.comp_apply]
    by_cases hkv : kv.1 == k
    · rw [if_pos hkv]
      exact (eq_of_beq hkv).symm
    · rw [if_neg hkv]
  · rw [List.map_append]
    rfl

theorem any_key_mem {m : List (String × String)} {k : String}
    (h : m.any (fun kv => kv.1 == k) = true) : k ∈ m.map Prod.fst := by
  obtain ⟨kv, hkv, hbeq⟩ := List.any_eq_true.mp h
  have hm := List.mem_map_of_mem Prod.fst hkv
  rwa [eq_of_beq hbeq] at hm

theorem buildAppMap_keys_nodup (apps : List ServicePrincipal) :
    ((buildAppMap apps).map Prod.fst).Nodup := by
  suffices h : ∀ m : List (String × String), (m.map Prod.fst).Nodup →
      (((apps.foldl
        (fun m a => dictUpsert m a.id (a.displayName.getD "Unnamed App"))
        m)).map Prod.fst).Nodup by
    exact h [] (by simp)
  induction apps with
  | nil => intro m hm; simpa using hm
  | cons a t ih =>
    intro m hm
    rw [List.foldl_cons]
    apply ih
    rw [dictUpsert_keys]
    split
    · exact hm
    · rename_i hany
      have hnotmem : a.id ∉ m.map Prod.fst := by
        intro hmem
        apply hany
        obtain ⟨kv, hkv, hfst⟩ := List.mem_map.mp hmem
        exact List.any_eq_true.mpr ⟨kv, hkv, by simp [hfst]⟩
      rw [List.nodup_append]
      refine ⟨hm, List.nodup_singleton _, ?_⟩
      intro x hx hx'
      simp only [List.mem_singleton] at hx'
      exact hnotmem (hx' ▸ hx)

theorem buildAppMap_keys_mem (apps : List ServicePrincipal) (x : String) :
    x ∈ (buildAppMap apps).map Prod.fst ↔ x ∈ apps.map (fun a => a.id) := by
  suffices h : ∀ m : List (String × String),
      (x ∈ ((apps.foldl
          (fun m a => dictUpsert m a.id (a.displayName.getD "Unnamed App"))
          m)).map Prod.fst
        ↔ x ∈ m.map Prod.fst ∨ x ∈ apps.map (fun a => a.id)) by
    simpa using h []
  induction apps with
  | nil => intro m; simp
  | cons a t ih =>
    intro m
    rw [List.foldl_cons, ih (dictUpsert m a.id (a.displayName.getD "Unnamed App"))]
    have hup : x ∈ (dictUpsert m a.id (a.displayName.getD "Unnamed App")).map Prod.fst
        ↔ (x ∈ m.map Prod.fst ∨ x = a.id) := by
      rw [dictUpsert_keys]
      split
      · rename_i hany
        constructor
        · exact Or.inl
        · rintro (h | rfl)
          · exact h
          · exact any_key_mem hany
      · simp [List.mem_append]
    rw [hup]
    simp only [List.map_cons, List.mem_cons]
    tauto

theorem specPolicyCoverage_mem (apps : List ServicePrincipal) (p : CAPolicy)
    (x : String) :
    x ∈ specPolicyCoverage apps p
      ↔ policyCoversApp ((buildAppMap apps).map Prod.fst) p x = true := by
  unfold specPolicyCoverage policyCoversApp
  by_cases hall : "All" ∈ p.includeApplications
  · rw [if_pos hall, if_pos (by simpa using hall)]
    rw [Finset.mem_sdiff, specRegisteredApps, List.mem_toFinset,
      show (x ∈ apps.map (fun a => a.id)) ↔ x ∈ (buildAppMap apps).map Prod.fst
        from (buildAppMap_keys_mem apps x).symm]
    simp [List.mem_toFinset]
  · rw [if_neg hall, if_neg (by simpa using hall)]
    simp

theorem specMfaCoverage_mem (apps : List ServicePrincipal)
    (policies : List CAPolicy) (x : String) :
    x ∈ specMfaCoverage apps policies
      ↔ mfaCoveredApp ((buildAppMap apps).map Prod.fst) policies x = true := by
  induction policies with
  | nil => simp [specMfaCoverage, mfaCoveredApp]
  | cons p ps ih =>
    simp only [specMfaCoverage, List.foldr_cons, mfaCoveredApp, List.any_cons]
    by_cases hm : policyMandatesMfa p
    · rw [if_pos hm]
      rw [Finset.mem_union]
      rw [specPolicyCoverage_mem]
      simp only [mfaCoveredApp] at ih
      simp only [specMfaCoverage] at ih
      rw [ih]
      simp [hm]
    · rw [if_neg hm]
      simp only [mfaCoveredApp] at ih
      simp only [specMfaCoverage] at ih
      rw [ih]
      simp [hm]

/-- C9: the applications-without-MFA metric is exactly the set difference
of all registered applications minus the union of the applications covered
by the conditional-access policies that mandate MFA (an `"All"` policy
covering every registered application except its exclusions): the returned
id list enumerates that set without duplicates, and the returned count is
the set's cardinality. -/
theorem claim_C9 (apps : List ServicePrincipal) (policies : List CAPolicy) :
    ((get_mfa_disabled_apps apps policies).2.map Prod.fst).toFinset
        = spec_apps_without_mfa apps policies ∧
    ((get_mfa_disabled_apps apps policies).2.map Prod.fst).Nodup ∧
    (get_mfa_disabled_apps apps policies).1
        = (spec_apps_without_mfa apps policies).card := by
  have hnodupkeys := buildAppMap_keys_nodup apps
  have hwnodup : (((buildAppMap apps).filter
      (fun kv => !mfaCoveredApp ((buildAppMap apps).map Prod.fst) policies kv.1)).map
        Prod.fst).Nodup :=
    List.Nodup.sublist (List.Sublist.map Prod.fst (List.filter_sublist _)) hnodupkeys
  have hmem : ∀ x, (x ∈ ((buildAppMap apps).filter
      (fun kv => !mfaCoveredApp ((buildAppMap apps).map Prod.fst) policies kv.1)).map
        Prod.fst)
      ↔ x ∈ spec_apps_without_mfa apps policies := by
    intro x
    rw [spec_apps_without_mfa, Finset.mem_sdiff, specRegisteredApps,
      List.mem_toFinset, ← buildAppMap_keys_mem apps x, specMfaCoverage_mem]
    constructor
    · intro hx
      obtain ⟨kv, hkv, rfl⟩ := List.mem_map.mp hx
      obtain ⟨hkvm, hpred⟩ := List.mem_filter.mp hkv
      exact ⟨List.mem_map_of_mem Prod.fst hkvm, by simpa using hpred⟩
    · rintro ⟨hxk, hncov⟩
      obtain ⟨kv, hkvm, rfl⟩ := List.mem_map.mp hxk
      exact List.mem_map_of_mem Prod.fst
        (List.mem_filter.mpr ⟨hkvm, by simpa using hncov⟩)
  have hset : (((buildAppMap apps).filter
      (fun kv => !mfaCoveredApp ((buildAppMap apps).map Prod.fst) policies kv.1)).map
        Prod.fst).toFinset = spec_apps_without_mfa apps policies := by
    apply Finset.ext
    intro x
    rw [List.mem_toFinset]
    exact hmem x
  refine ⟨hset, hwnodup, ?_⟩
  show ((buildAppMap apps).filter
    (fun kv => !mfaCoveredApp ((buildAppMap apps).map Prod.fst) policies kv.1)).length
      = _
  rw [← hset, List.toFinset_card_of_nodup hwnodup, List.length_map]
